import Mathlib

/-!
# Verification of the JanawarCensus edge-device subsystem

Shallow embedding, in Lean 4, of the edge-device components of the
JanawarCensus repository, together with proofs about the spec's claims.

The embedded source files are:
* `edge-device/upload_scripts/sync_to_server.py` (`ServerSynchronizer`)
* `edge-device/audio_capture/audio_recorder.py` (`AudioRecorder`)
* `edge-device/gps_tracking/gps_tracker.py` (`GPSTracker`)

File-system paths are modelled as `String`, byte counts and times as `Nat`,
remote transfers and local file-system writes as explicit event lists, and
exceptions as `Bool`-valued success oracles (an oracle returning `false` for
a path stands for `sftp.put`/`chmod` raising on that path, which
`ServerSynchronizer._upload_file` catches and converts into `return False`).
-/

/-! ## ServerSynchronizer (sync_to_server.py)

State of one `ServerSynchronizer` together with the observable effects of a
pass: `syncedFiles` is the in-memory `self.synced_files` set (a list with
set semantics), `savedIndex` is the content last persisted to
`sync_status.json` by `_save_sync_status`, and `transfers` records every
`sftp.put` call attempted, in order. -/

structure SyncState where
  syncedFiles : List String
  savedIndex : List String
  transfers : List String
  deriving DecidableEq, Repr

/-- `ServerSynchronizer._upload_file` (sync_to_server.py lines 106-124):
attempts `sftp.put`; on success (oracle `ok` is `true` for the path) adds the
path to `self.synced_files` and immediately persists via
`_save_sync_status`, returning `True`; any exception during the transfer is
caught, logged, and turned into `return False` with no index change. -/
def upload_file (ok : String → Bool) (st : SyncState) (p : String) :
    SyncState × Bool :=
  let st1 : SyncState := { st with transfers := st.transfers ++ [p] }
  if ok p then
    let synced := if p ∈ st1.syncedFiles then st1.syncedFiles
                  else st1.syncedFiles ++ [p]
    ({ st1 with syncedFiles := synced, savedIndex := synced }, true)
  else
    (st1, false)

/-- The candidate loop of `ServerSynchronizer.sync_files` (sync_to_server.py
lines 144-173): for each enumerated local file not already in
`self.synced_files`, call `_upload_file`; the boolean result is ignored
(`if self._upload_file(...): pass`), so the loop continues to the next
candidate whether or not the upload succeeded. -/
def sync_files (ok : String → Bool) : List String → SyncState → SyncState
  | [], st => st
  | p :: rest, st =>
    if p ∈ st.syncedFiles then
      sync_files ok rest st
    else
      sync_files ok rest (upload_file ok st p).1

/-- Local file-system write events, used to describe how
`_save_sync_status` persists the index. `openTruncate p` is `open(p, 'w')`
(which truncates an existing file in place), `writeContent p c` is writing
the serialized index `c` into the already-open file at `p`, and
`rename src dst` is an atomic `os.rename`/`os.replace`. -/
inductive FsWrite where
  | openTruncate (path : String)
  | writeContent (path : String) (content : List String)
  | rename (src dst : String)
  deriving DecidableEq, Repr

/-- `ServerSynchronizer._save_sync_status` (sync_to_server.py lines 59-65) as
its sequence of file-system write events: it opens `sync_status.json` itself
in `'w'` mode (truncating it) and `json.dump`s the current set into it.
No temporary file and no rename are involved. -/
def save_sync_status (indexPath : String) (idx : List String) :
    List FsWrite :=
  [FsWrite.openTruncate indexPath, FsWrite.writeContent indexPath idx]

/-- Modelled from the spec: the "write-new-then-atomic-replace" persistence
discipline the spec ascribes to the index ("persist the index via
write-new-then-atomic-replace"). A write-event trace follows it when no
write ever targets the canonical index path directly and the canonical path
is instead installed by an atomic rename. Stated over traces so it can be
compared with the trace of `save_sync_status`. -/
def followsAtomicReplace (indexPath : String) (evs : List FsWrite) : Bool :=
  (evs.all fun ev => match ev with
    | FsWrite.openTruncate p => p != indexPath
    | FsWrite.writeContent p _ => p != indexPath
    | FsWrite.rename _ _ => true)
  && (evs.any fun ev => match ev with
    | FsWrite.rename _ dst => dst == indexPath
    | _ => false)

/-- The on-disk state of `sync_status.json` as `_load_sync_status` can find
it: absent, present but unreadable (`open` raises), present but not valid
JSON (`json.load` raises), or valid JSON with a `synced_files` list (absent
key defaulting to the empty list via `.get('synced_files', [])`). -/
inductive IndexFileState where
  | missing
  | unreadable
  | invalidJson
  | valid (entries : List String)
  deriving DecidableEq, Repr

/-- `ServerSynchronizer._load_sync_status` (sync_to_server.py lines 49-57):
returns the parsed `synced_files` entries when the file exists and parses;
if the file does not exist, or opening/parsing raises any exception, the
exception is caught and the empty set is returned. -/
def load_sync_status : IndexFileState → List String
  | IndexFileState.missing => []
  | IndexFileState.unreadable => []
  | IndexFileState.invalidJson => []
  | IndexFileState.valid entries => entries.dedup

/-! ## AudioRecorder.record_audio save path (audio_recorder.py lines 149-177)

The artifact directory is modelled as a partial map from paths to file
data. A file being written through the open `wave` handle holds a prefix of
the frames (`writing`); a closed, completely written file holds them all
(`full`). `captureStates` lists every intermediate directory state of one
capture cycle's save sequence: frames are written chunk by chunk into
`{filename}.tmp`, the handle is closed, and `os.rename` atomically installs
the temp file at the canonical name. -/

abbrev Frame := Nat

inductive FileData where
  | writing (frames : List Frame)
  | full (frames : List Frame)
  deriving DecidableEq, Repr

abbrev DirState := String → Option FileData

def fsSet (fs : DirState) (p : String) (d : Option FileData) : DirState :=
  fun q => if q = p then d else fs q

/-- `temp_filename = f"{filename}.tmp"` (audio_recorder.py line 150). -/
def tmpName (c : String) : String := c ++ ".tmp"

/-- The directory states while `wave.open(temp_filename, 'wb')` writes the
accumulated frames into the temp file, one prefix at a time. -/
def writeSteps (fs : DirState) (c : String) (frames : List Frame) :
    List DirState :=
  (List.range (frames.length + 1)).map fun i =>
    fsSet fs (tmpName c) (some (FileData.writing (frames.take i)))

/-- All directory states of one capture cycle's save sequence
(audio_recorder.py lines 149-161): the temp-file write steps, the state
after the `wave` handle is closed (temp file complete), and the state after
`os.rename(temp_filename, filename)` atomically installs the canonical
name and removes the temp name. -/
def captureStates (fs : DirState) (c : String) (frames : List Frame) :
    List DirState :=
  writeSteps fs c frames
    ++ [fsSet fs (tmpName c) (some (FileData.full frames))]
    ++ [fsSet (fsSet fs (tmpName c) none) c (some (FileData.full frames))]

/-! ## AudioRecorder._check_storage (audio_recorder.py lines 193-231) -/

/-- One artifact file as `_check_storage` sees it: its path carries the
capture timestamp (`{device_id}_{timestamp}.wav`), the file system carries
a modification time, and the file and its `.json` sidecar have sizes. -/
structure Recording where
  name : String
  captureTs : Nat
  mtime : Nat
  size : Nat
  sidecarSize : Nat
  deriving DecidableEq, Repr

def mtimeOrder : Recording → Recording → Prop :=
  fun a b => a.mtime ≤ b.mtime

instance : DecidableRel mtimeOrder :=
  fun a b => Nat.decLe a.mtime b.mtime

/-- `recordings = sorted(self.output_dir.glob('*.wav'), key=os.path.getmtime)`
(audio_recorder.py line 206): candidates sorted ascending by file-system
modification time (a stable sort, as Python's `sorted` is). -/
def evictionCandidates (rs : List Recording) : List Recording :=
  List.insertionSort mtimeOrder rs

def captureTsOrder : Recording → Recording → Prop :=
  fun a b => a.captureTs ≤ b.captureTs

instance : DecidableRel captureTsOrder :=
  fun a b => Nat.decLe a.captureTs b.captureTs

/-- Modelled from the spec: the candidate ordering the spec claims —
"ordered by capture timestamp (not filesystem mtime) ascending" — for
comparison with `evictionCandidates`. -/
def specEvictionCandidates (rs : List Recording) : List Recording :=
  List.insertionSort captureTsOrder rs

/-- Deletion events of `_check_storage`, in order. -/
inductive DelEv where
  | artifactFile (name : String)
  | sidecarFile (name : String)
  deriving DecidableEq, Repr

/-- The per-candidate deletion unit (audio_recorder.py lines 211-217):
`oldest_recording.unlink()` first, then
`if metadata_file.exists(): metadata_file.unlink()`. -/
def deletePairEvents (r : Recording) (sidecarExists : Bool) : List DelEv :=
  [DelEv.artifactFile r.name]
    ++ (if sidecarExists then [DelEv.sidecarFile r.name] else [])

structure EvictResult where
  used : Nat
  free : Nat
  remaining : List Recording
  events : List DelEv
  deriving Repr

/-- The `while` condition of the eviction loop (audio_recorder.py line 209):
`total_used_gb > self.max_storage_gb * 0.9 or free_gb < self.min_free_space_gb`,
in exact byte arithmetic (`used > 0.9 * budget` ⟺ `10 * used > 9 * budget`). -/
def overTarget (budget floor used free : Nat) : Bool :=
  (9 * budget < 10 * used) || (free < floor)

/-- The eviction loop of `_check_storage` (audio_recorder.py lines 208-224):
while over the hysteresis target or under the free-space floor, and
candidates remain, pop the first candidate, delete its file and (if
present, per the map `sc`) its sidecar, and recompute disk usage. -/
def evictLoop (budget floor : Nat) (sc : Recording → Bool) :
    List Recording → Nat → Nat → EvictResult
  | [], used, free => ⟨used, free, [], []⟩
  | r :: rest, used, free =>
    if overTarget budget floor used free then
      let freed := r.size + (if sc r then r.sidecarSize else 0)
      let res := evictLoop budget floor sc rest (used - freed) (free + freed)
      ⟨res.used, res.free, res.remaining,
        deletePairEvents r (sc r) ++ res.events⟩
    else
      ⟨used, free, r :: rest, []⟩

/-- `AudioRecorder._check_storage` (audio_recorder.py lines 193-231): if
usage exceeds the budget or free space is under the floor, sort the
candidates by mtime and run the eviction loop; otherwise do nothing. -/
def check_storage (budget floor : Nat) (sc : Recording → Bool)
    (rs : List Recording) (used free : Nat) : EvictResult :=
  if budget < used || free < floor then
    evictLoop budget floor sc (evictionCandidates rs) used free
  else
    ⟨used, free, rs, []⟩

/-! ## GPSTracker (gps_tracker.py) -/

/-- A `gpsd` packet as `get_current_location` reads it. -/
structure GpsPacket where
  mode : Nat
  time : Nat
  lat : Int
  lon : Int
  alt : Option Int
  hspeed : Option Int
  track : Option Int
  sats : Nat
  errLat : Int
  errLon : Int
  errAlt : Int
  deriving DecidableEq, Repr

/-- Outcome of `gpsd.get_current()`: either a packet, or an exception
(`readError`), which `get_current_location` catches and maps to `None`. -/
inductive PacketResult where
  | readError
  | packet (p : GpsPacket)
  deriving DecidableEq, Repr

/-- The location dict built by `get_current_location`
(gps_tracker.py lines 52-67). -/
structure LocationRecord where
  timestamp : Nat
  latitude : Int
  longitude : Int
  altitude : Option Int
  speed : Option Int
  track : Option Int
  mode : Nat
  satellitesUsed : Nat
  errLat : Int
  errLon : Int
  errAlt : Int
  deriving DecidableEq, Repr

/-- `GPSTracker.get_current_location` (gps_tracker.py lines 45-74): `None`
when gpsd was unavailable at startup, when the read raises, or when the
packet's fix mode is below 2; otherwise the location record. -/
def get_current_location (gpsAvailable : Bool) (r : PacketResult) :
    Option LocationRecord :=
  if !gpsAvailable then none
  else
    match r with
    | PacketResult.readError => none
    | PacketResult.packet p =>
      if 2 ≤ p.mode then
        some { timestamp := p.time, latitude := p.lat, longitude := p.lon,
               altitude := p.alt, speed := p.hspeed, track := p.track,
               mode := p.mode, satellitesUsed := p.sats,
               errLat := p.errLat, errLon := p.errLon, errAlt := p.errAlt }
      else none

/-- `GPSTracker.log_location` (gps_tracker.py lines 94-113): when
`get_current_location` returns a record, append one line to the daily log;
otherwise leave the log untouched. Returns the new log and the function's
return value. -/
def log_location (gpsAvailable : Bool) (r : PacketResult)
    (dayLog : List LocationRecord) :
    List LocationRecord × Option LocationRecord :=
  match get_current_location gpsAvailable r with
  | none => (dayLog, none)
  | some loc => (dayLog ++ [loc], some loc)

/-- The sampling loop of `GPSTracker.start_tracking` (gps_tracker.py lines
124-127) over a finite schedule of ticks, each tick delivering one
`gpsd.get_current()` outcome. -/
def trackTicks (gpsAvailable : Bool) (reads : List PacketResult)
    (dayLog : List LocationRecord) : List LocationRecord :=
  reads.foldl (fun l r => (log_location gpsAvailable r l).1) dayLog

/-! ## AudioRecorder.save_metadata (audio_recorder.py lines 70-84) -/

structure AudioFormat where
  channels : Nat
  sampleWidth : Nat
  frameRate : Nat
  deriving DecidableEq, Repr

/-- The sidecar JSON written by `save_metadata`: device id, timestamp,
`'location': gps_data or {}` (`none` models the empty dict), and the audio
format parameters. -/
structure RecordingMetadata where
  deviceId : String
  timestamp : String
  location : Option LocationRecord
  audioFormat : AudioFormat
  deriving DecidableEq, Repr

/-- `AudioRecorder.save_metadata` (audio_recorder.py lines 70-84). -/
def save_metadata (deviceId timestamp : String) (fmt : AudioFormat)
    (gpsData : Option LocationRecord) : RecordingMetadata :=
  { deviceId := deviceId, timestamp := timestamp, location := gpsData,
    audioFormat := fmt }

/-- The sidecar actually written at the end of a capture cycle:
`record_audio` calls `self.save_metadata(str(filename))` (audio_recorder.py
line 177) with no `gps_data` argument, whatever location fix is available
at sidecar-write time (`_availableFix`). -/
def record_cycle_sidecar (deviceId timestamp : String) (fmt : AudioFormat)
    (_availableFix : Option LocationRecord) : RecordingMetadata :=
  save_metadata deviceId timestamp fmt none

/-! ## Auxiliary predicates and sample values -/

/-- A sampling-tick outcome on which `get_current_location` reports no
location: the read raised, or the packet's fix mode is below 2. -/
def noFixRead (r : PacketResult) : Prop :=
  r = PacketResult.readError
    ∨ ∃ p, r = PacketResult.packet p ∧ p.mode < 2

instance : IsTotal Recording mtimeOrder :=
  ⟨fun a b => Nat.le_total a.mtime b.mtime⟩

instance : IsTrans Recording mtimeOrder :=
  ⟨fun _ _ _ hab hbc => Nat.le_trans hab hbc⟩

/-- A concrete no-fix packet (mode 1). -/
def pktNoFix : GpsPacket :=
  ⟨1, 0, 0, 0, none, none, none, 3, 0, 0, 0⟩

/-- A concrete valid 3D location fix. -/
def fix3d : LocationRecord :=
  ⟨100, 34, 74, some 1600, some 0, some 90, 3, 8, 1, 1, 2⟩

/-! ## Helper lemmas about the synchronizer -/

theorem upload_file_fail (ok : String → Bool) (st : SyncState) (p : String)
    (h : ok p = false) :
    upload_file ok st p = ({ st with transfers := st.transfers ++ [p] }, false) := by
  simp [upload_file, h]

theorem upload_file_succ (ok : String → Bool) (st : SyncState) (p : String)
    (h : ok p = true) :
    upload_file ok st p =
      (let synced := if p ∈ st.syncedFiles then st.syncedFiles
                     else st.syncedFiles ++ [p]
       ({ syncedFiles := synced, savedIndex := synced,
          transfers := st.transfers ++ [p] }, true)) := by
  simp [upload_file, h]

theorem upload_file_mem_synced (ok : String → Bool) (st : SyncState)
    (p q : String) (h : q ∈ st.syncedFiles) :
    q ∈ (upload_file ok st p).1.syncedFiles := by
  by_cases hk : ok p = true
  · rw [upload_file_succ ok st p hk]
    by_cases hp : p ∈ st.syncedFiles <;> simp [hp, h]
  · rw [upload_file_fail ok st p (by simpa using hk)]
    exact h

theorem upload_file_self_mem (ok : String → Bool) (st : SyncState)
    (p : String) (h : ok p = true) :
    p ∈ (upload_file ok st p).1.syncedFiles := by
  rw [upload_file_succ ok st p h]
  by_cases hp : p ∈ st.syncedFiles <;> simp [hp]

theorem upload_file_self_saved (ok : String → Bool) (st : SyncState)
    (p : String) (h : ok p = true) :
    p ∈ (upload_file ok st p).1.savedIndex := by
  rw [upload_file_succ ok st p h]
  by_cases hp : p ∈ st.syncedFiles <;> simp [hp]

theorem upload_file_not_mem (ok : String → Bool) (st : SyncState)
    (p q : String) (hq : q ∉ st.syncedFiles) (hne : q ≠ p) :
    q ∉ (upload_file ok st p).1.syncedFiles := by
  by_cases hk : ok p = true
  · rw [upload_file_succ ok st p hk]
    by_cases hp : p ∈ st.syncedFiles <;> simp [hp, hq, hne]
  · rw [upload_file_fail ok st p (by simpa using hk)]
    exact hq

theorem sync_files_mem_mono (ok : String → Bool) (files : List String)
    (st : SyncState) (q : String) (h : q ∈ st.syncedFiles) :
    q ∈ (sync_files ok files st).syncedFiles := by
  induction files generalizing st with
  | nil => exact h
  | cons p rest ih =>
    simp only [sync_files]
    split
    · exact ih st h
    · exact ih _ (upload_file_mem_synced ok st p q h)

theorem sync_files_all_mem (ok : String → Bool) (files : List String)
    (st : SyncState) (hok : ∀ p ∈ files, ok p = true) :
    ∀ p ∈ files, p ∈ (sync_files ok files st).syncedFiles := by
  induction files generalizing st with
  | nil => intro p hp; cases hp
  | cons q rest ih =>
    intro p hp
    rcases List.mem_cons.mp hp with rfl | hrest
    · simp only [sync_files]
      split
      · exact sync_files_mem_mono ok rest st p (by assumption)
      · exact sync_files_mem_mono ok rest _ p
          (upload_file_self_mem ok st p (hok p (List.mem_cons_self p rest)))
    · simp only [sync_files]
      split
      · exact ih st (fun r hr => hok r (List.mem_cons_of_mem q hr)) p hrest
      · exact ih _ (fun r hr => hok r (List.mem_cons_of_mem q hr)) p hrest

theorem sync_files_skip_all (ok : String → Bool) (files : List String)
    (st : SyncState) (h : ∀ p ∈ files, p ∈ st.syncedFiles) :
    sync_files ok files st = st := by
  induction files with
  | nil => rfl
  | cons p rest ih =>
    simp only [sync_files]
    rw [if_pos (h p (List.mem_cons_self p rest))]
    exact ih (fun r hr => h r (List.mem_cons_of_mem p hr))

theorem sync_files_transfers_all (ok : String → Bool) (files : List String)
    (st : SyncState) (hok : ∀ p ∈ files, ok p = true)
    (hnodup : files.Nodup) (hnew : ∀ p ∈ files, p ∉ st.syncedFiles) :
    (sync_files ok files st).transfers = st.transfers ++ files := by
  induction files generalizing st with
  | nil => simp [sync_files]
  | cons p rest ih =>
    have hp : ok p = true := hok p (List.mem_cons_self p rest)
    simp only [sync_files]
    rw [if_neg (hnew p (List.mem_cons_self p rest))]
    rw [upload_file_succ ok st p hp]
    have hrest_ok : ∀ q ∈ rest, ok q = true :=
      fun q hq => hok q (List.mem_cons_of_mem p hq)
    have hrest_nodup : rest.Nodup := (List.nodup_cons.mp hnodup).2
    have hpnotrest : p ∉ rest := (List.nodup_cons.mp hnodup).1
    have hpmem : p ∉ st.syncedFiles := hnew p (List.mem_cons_self p rest)
    have hrest_new :
        ∀ q ∈ rest, q ∉ st.syncedFiles ++ [p] := by
      intro q hq
      have hqs : q ∉ st.syncedFiles := hnew q (List.mem_cons_of_mem p hq)
      have hqp : q ≠ p := fun h => hpnotrest (h ▸ hq)
      simp [hqs, hqp]
    rw [if_neg hpmem]
    rw [ih _ hrest_ok hrest_nodup hrest_new]
    simp

theorem sync_files_not_mem (ok : String → Bool) (files : List String)
    (st : SyncState) (q : String) (hq : q ∉ st.syncedFiles)
    (hf : q ∉ files) :
    q ∉ (sync_files ok files st).syncedFiles := by
  induction files generalizing st with
  | nil => exact hq
  | cons p rest ih =>
    have hqp : q ≠ p := fun h => hf (h ▸ List.mem_cons_self p rest)
    have hqrest : q ∉ rest := fun h => hf (List.mem_cons_of_mem p h)
    simp only [sync_files]
    split
    · exact ih st hq hqrest
    · exact ih _ (upload_file_not_mem ok st p q hq hqp) hqrest

/-! ## Claim C2 -/

/-- C2: a `sync_files` pass in which every enumerated local file is already
recorded in the sync index performs zero transfers, and after a pass whose
uploads all succeed, a second pass over the same local files performs zero
additional transfers. -/
theorem sync_files_idempotent (ok : String → Bool) (files : List String)
    (st : SyncState) :
    ((∀ p ∈ files, p ∈ st.syncedFiles) →
      (sync_files ok files st).transfers = st.transfers)
    ∧ ((∀ p ∈ files, ok p = true) →
      (sync_files ok files (sync_files ok files st)).transfers
        = (sync_files ok files st).transfers) := by
  constructor
  · intro h
    rw [sync_files_skip_all ok files st h]
  · intro hok
    rw [sync_files_skip_all ok files _ (sync_files_all_mem ok files st hok)]

/-- Witness for C2 at concrete inputs: a pass over `["a"]` with `"a"`
already indexed transfers nothing, and the second of two consecutive passes
over `["a", "b"]` from an empty index transfers nothing new. -/
theorem sync_files_idempotent_witness :
    (sync_files (fun _ => true) ["a"] ⟨["a"], ["a"], []⟩).transfers
      = (⟨["a"], ["a"], []⟩ : SyncState).transfers
    ∧ (sync_files (fun _ => true) ["a", "b"]
        (sync_files (fun _ => true) ["a", "b"] ⟨[], [], []⟩)).transfers
      = (sync_files (fun _ => true) ["a", "b"] ⟨[], [], []⟩).transfers := by
  exact ⟨(sync_files_idempotent (fun _ => true) ["a"] ⟨["a"], ["a"], []⟩).1
          (by decide),
         (sync_files_idempotent (fun _ => true) ["a", "b"] ⟨[], [], []⟩).2
          (by decide)⟩

/-! ## Claim C3 -/

/-- C3 counterexample: `_save_sync_status` persists the index by opening
`sync_status.json` itself in `'w'` mode (a truncating in-place write); at
the concrete index `["a"]` its write trace does not follow the
write-new-then-atomic-replace discipline the claim asserts. -/
theorem save_sync_status_counterexample :
    followsAtomicReplace "sync_status.json"
      (save_sync_status "sync_status.json" ["a"]) = false := by decide

/-- C3 amended: immediately after a file's confirmed remote acceptance and
before the next candidate is processed, the uploader adds the path to the
sync index and persists the index — but the persistence is a truncating
in-place rewrite of `sync_status.json`, never a write-new-then-atomic-
replace. -/
theorem upload_persists_before_next (ok : String → Bool) (st : SyncState)
    (p : String) (rest : List String)
    (hnew : p ∉ st.syncedFiles) (hok : ok p = true) :
    sync_files ok (p :: rest) st = sync_files ok rest (upload_file ok st p).1
    ∧ p ∈ (upload_file ok st p).1.savedIndex
    ∧ (upload_file ok st p).1.savedIndex = (upload_file ok st p).1.syncedFiles
    ∧ ∀ indexPath idx,
        followsAtomicReplace indexPath (save_sync_status indexPath idx)
          = false := by
  refine ⟨?_, upload_file_self_saved ok st p hok, ?_, ?_⟩
  · simp only [sync_files]
    rw [if_neg hnew]
  · rw [upload_file_succ ok st p hok]
  · intro indexPath idx
    simp [followsAtomicReplace, save_sync_status]

/-- Witness for C3's amended theorem at a concrete input: one new file
`"a"` whose upload succeeds, from an empty state. -/
theorem upload_persists_before_next_witness :
    sync_files (fun _ => true) ["a", "b"] ⟨[], [], []⟩
      = sync_files (fun _ => true) ["b"]
          (upload_file (fun _ => true) ⟨[], [], []⟩ "a").1
    ∧ "a" ∈ (upload_file (fun _ => true) ⟨[], [], []⟩ "a").1.savedIndex := by
  have h := upload_persists_before_next (fun _ => true) ⟨[], [], []⟩ "a" ["b"]
    (by decide) rfl
  exact ⟨h.1, h.2.1⟩

/-! ## Claim C4 -/

/-- C4 counterexample: with candidates `["f1", "f2"]`, an empty index, and
a transport error while transferring `"f1"`, `sync_files` does not abort
the remaining batch: it still attempts the transfer of `"f2"` (the full
attempted-transfer sequence is `["f1", "f2"]`). -/
theorem sync_files_no_abort_counterexample :
    (fun p => p != "f1") "f1" = false
    ∧ (sync_files (fun p => p != "f1") ["f1", "f2"]
        ⟨[], [], []⟩).transfers = ["f1", "f2"]
    ∧ (sync_files (fun p => p != "f1") ["f1", "f2"]
        ⟨[], [], []⟩).syncedFiles = ["f2"] := by decide

/-- C4 amended: a transport error while transferring one candidate is
caught inside `_upload_file`; the failed file is not added to the index,
and the pass continues with the remaining candidates rather than aborting;
index entries already recorded are preserved, and (when the failed path is
not enumerated again later in the pass) it stays out of the index, so the
next pass treats it as unsynced and retries it. -/
theorem sync_files_error_continues (ok : String → Bool) (st : SyncState)
    (p : String) (rest : List String)
    (hnew : p ∉ st.syncedFiles) (hfail : ok p = false) :
    sync_files ok (p :: rest) st
      = sync_files ok rest { st with transfers := st.transfers ++ [p] }
    ∧ p ∉ ({ st with transfers := st.transfers ++ [p] } : SyncState).syncedFiles
    ∧ (∀ q ∈ st.syncedFiles, q ∈ (sync_files ok (p :: rest) st).syncedFiles)
    ∧ (p ∉ rest → p ∉ (sync_files ok (p :: rest) st).syncedFiles) := by
  have hstep : sync_files ok (p :: rest) st
      = sync_files ok rest { st with transfers := st.transfers ++ [p] } := by
    simp only [sync_files]
    rw [if_neg hnew, upload_file_fail ok st p hfail]
  refine ⟨hstep, hnew, ?_, ?_⟩
  · intro q hq
    rw [hstep]
    exact sync_files_mem_mono ok rest _ q hq
  · intro hpr
    rw [hstep]
    exact sync_files_not_mem ok rest _ p hnew hpr

/-- Witness for C4's amended theorem at a concrete input: candidates
`["f1", "f2"]`, empty index, transport error on `"f1"`. -/
theorem sync_files_error_continues_witness :
    sync_files (fun p => p != "f1") ["f1", "f2"] ⟨[], [], []⟩
      = sync_files (fun p => p != "f1") ["f2"] ⟨[], [], ["f1"]⟩
    ∧ "f1" ∉ (sync_files (fun p => p != "f1") ["f1", "f2"]
        ⟨[], [], []⟩).syncedFiles := by
  have h := sync_files_error_continues (fun p => p != "f1") ⟨[], [], []⟩
    "f1" ["f2"] (by decide) (by decide)
  exact ⟨h.1, h.2.2.2 (by decide)⟩

/-! ## Claim C10 -/

/-- C10: when `sync_status.json` is missing, unreadable, or invalid JSON,
`_load_sync_status` returns the empty set instead of raising, so a pass
from the freshly loaded state treats every local file as unsynced and
(re-)transfers all of them. -/
theorem load_sync_status_fallback (s : IndexFileState)
    (h : s = IndexFileState.missing ∨ s = IndexFileState.unreadable
      ∨ s = IndexFileState.invalidJson) :
    load_sync_status s = []
    ∧ ∀ (ok : String → Bool) (files : List String),
        files.Nodup → (∀ p ∈ files, ok p = true) →
        (sync_files ok files
          ⟨load_sync_status s, load_sync_status s, []⟩).transfers = files := by
  have hempty : load_sync_status s = [] := by
    rcases h with rfl | rfl | rfl <;> rfl
  refine ⟨hempty, ?_⟩
  intro ok files hnodup hok
  rw [hempty]
  have := sync_files_transfers_all ok files ⟨[], [], []⟩ hok hnodup
    (by intro p _; simp)
  simpa using this

/-- Witness for C10 at a concrete input: an invalid-JSON index file and two
local files. -/
theorem load_sync_status_fallback_witness :
    load_sync_status IndexFileState.invalidJson = []
    ∧ (sync_files (fun _ => true) ["a", "b"]
        ⟨load_sync_status IndexFileState.invalidJson,
         load_sync_status IndexFileState.invalidJson, []⟩).transfers
      = ["a", "b"] := by
  have h := load_sync_status_fallback IndexFileState.invalidJson
    (Or.inr (Or.inr rfl))
  exact ⟨h.1, h.2 (fun _ => true) ["a", "b"] (by decide) (by decide)⟩

/-! ## Claim C1 -/

theorem tmpName_ne (c : String) : tmpName c ≠ c := by
  intro h
  have hlen : (c ++ ".tmp").length = c.length := congrArg String.length h
  rw [String.length_append] at hlen
  have h4 : ".tmp".length = 4 := rfl
  rw [h4] at hlen
  omega

theorem fsSet_other (fs : DirState) (p : String) (d : Option FileData)
    (q : String) (hq : q ≠ p) : fsSet fs p d q = fs q := by
  simp [fsSet, hq]

theorem fsSet_self (fs : DirState) (p : String) (d : Option FileData) :
    fsSet fs p d p = d := by
  simp [fsSet]

/-- C1: during a capture cycle whose canonical artifact path is initially
absent, every intermediate directory state of the save sequence has the
canonical path either absent or holding the complete accumulated frames —
it becomes visible, fully written, exactly at the atomic rename. So no
state in which `_check_storage`'s scan or `sync_files`'s enumeration could
run ever shows a partially written file at the canonical path. -/
theorem capture_canonical_atomic (fs : DirState) (c : String)
    (frames : List Frame) (h0 : fs c = none) :
    (∀ s ∈ captureStates fs c frames,
      s c = none ∨ s c = some (FileData.full frames))
    ∧ ∃ s ∈ captureStates fs c frames, s c = some (FileData.full frames) := by
  have hne : c ≠ tmpName c := fun h => tmpName_ne c h.symm
  constructor
  · intro s hs
    simp only [captureStates, List.mem_append, List.mem_singleton] at hs
    rcases hs with (hw | rfl) | rfl
    · left
      simp only [writeSteps, List.mem_map] at hw
      obtain ⟨i, _, rfl⟩ := hw
      rw [fsSet_other fs (tmpName c) _ c hne]
      exact h0
    · left
      rw [fsSet_other fs (tmpName c) _ c hne]
      exact h0
    · right
      exact fsSet_self _ c _
  · refine ⟨fsSet (fsSet fs (tmpName c) none) c (some (FileData.full frames)),
      ?_, fsSet_self _ c _⟩
    simp [captureStates]

/-- Witness for C1 at a concrete input: an empty directory, the canonical
name `d_1.wav`, and two accumulated frames. -/
theorem capture_canonical_atomic_witness :
    ((fun _ => none : DirState) "d_1.wav" = none)
    ∧ ∀ s ∈ captureStates (fun _ => none) "d_1.wav" [7, 9],
        s "d_1.wav" = none ∨ s "d_1.wav" = some (FileData.full [7, 9]) :=
  ⟨rfl, (capture_canonical_atomic (fun _ => none) "d_1.wav" [7, 9] rfl).1⟩

/-! ## Claim C5 -/

/-- C5 counterexample: two artifacts where the capture-timestamp order and
the file-system-mtime order disagree. `a.wav` is capture-older (timestamp 1
versus 2) but mtime-newer (10 versus 5); the code's candidate list starts
with `b.wav`, not `a.wav`, and differs from the capture-timestamp ordering
the claim asserts — and the first deletion event of `_check_storage` is the
capture-newer `b.wav`. -/
theorem eviction_order_counterexample :
    evictionCandidates [⟨"a.wav", 1, 10, 5, 1⟩, ⟨"b.wav", 2, 5, 5, 1⟩]
      ≠ specEvictionCandidates [⟨"a.wav", 1, 10, 5, 1⟩, ⟨"b.wav", 2, 5, 5, 1⟩]
    ∧ (evictionCandidates [⟨"a.wav", 1, 10, 5, 1⟩, ⟨"b.wav", 2, 5, 5, 1⟩]).head?
      = some ⟨"b.wav", 2, 5, 5, 1⟩
    ∧ (check_storage 0 0 (fun _ => true)
        [⟨"a.wav", 1, 10, 5, 1⟩, ⟨"b.wav", 2, 5, 5, 1⟩] 100 100).events.head?
      = some (DelEv.artifactFile "b.wav") := by decide

/-- C5 amended: when reclaim must evict, the candidates are ordered
ascending by file-system modification time (`os.path.getmtime`), not by the
capture timestamp in the file name, and deletion proceeds oldest-mtime
first: the candidate list is a permutation of the artifacts sorted by
`mtimeOrder`, and the eviction loop consumes it from the front. -/
theorem eviction_order_by_mtime (rs : List Recording) :
    List.Sorted mtimeOrder (evictionCandidates rs)
    ∧ (evictionCandidates rs).Perm rs := by
  exact ⟨List.sorted_insertionSort mtimeOrder rs,
         List.perm_insertionSort mtimeOrder rs⟩

/-! ## Claim C6 -/

theorem evictLoop_post (budget floor : Nat) (sc : Recording → Bool) :
    ∀ (rs : List Recording) (used free : Nat),
      (10 * (evictLoop budget floor sc rs used free).used ≤ 9 * budget
        ∧ floor ≤ (evictLoop budget floor sc rs used free).free)
      ∨ (evictLoop budget floor sc rs used free).remaining = []
  | [], _, _ => Or.inr rfl
  | r :: rest, used, free => by
    rw [evictLoop]
    split
    · have ih := evictLoop_post budget floor sc rest
        (used - (r.size + if sc r then r.sidecarSize else 0))
        (free + (r.size + if sc r then r.sidecarSize else 0))
      exact ih
    · rename_i h
      simp only [overTarget, Bool.or_eq_true, decide_eq_true_eq, not_or] at h
      left
      constructor
      · show 10 * used ≤ 9 * budget
        omega
      · show floor ≤ free
        omega

/-- C6: when usage exceeds the budget, `_check_storage` runs its eviction
loop and that loop terminates (it is a structurally recursive function of
the candidate list, deleting one artifact-and-sidecar pair per step): at
its end, either usage is at or below the 90%-of-budget hysteresis target
and free space is at or above the floor, or no candidate artifacts remain
and it stopped rather than looping. -/
theorem check_storage_converges (budget floor : Nat) (sc : Recording → Bool)
    (rs : List Recording) (used free : Nat) (hover : budget < used) :
    (10 * (check_storage budget floor sc rs used free).used ≤ 9 * budget
      ∧ floor ≤ (check_storage budget floor sc rs used free).free)
    ∨ (check_storage budget floor sc rs used free).remaining = [] := by
  have hcond : (decide (budget < used) || decide (free < floor)) = true := by
    simp [hover]
  rw [check_storage]
  rw [if_pos hcond]
  exact evictLoop_post budget floor sc (evictionCandidates rs) used free

/-- Witness for C6 at a concrete input: budget 10, floor 0, two artifacts,
usage 100, free space 50. -/
theorem check_storage_converges_witness :
    (10 : Nat) < 100
    ∧ ((10 * (check_storage 10 0 (fun _ => true)
          [⟨"a.wav", 1, 10, 5, 1⟩, ⟨"b.wav", 2, 5, 5, 1⟩] 100 50).used ≤ 9 * 10
        ∧ 0 ≤ (check_storage 10 0 (fun _ => true)
          [⟨"a.wav", 1, 10, 5, 1⟩, ⟨"b.wav", 2, 5, 5, 1⟩] 100 50).free)
      ∨ (check_storage 10 0 (fun _ => true)
          [⟨"a.wav", 1, 10, 5, 1⟩, ⟨"b.wav", 2, 5, 5, 1⟩] 100 50).remaining
        = []) :=
  ⟨by decide,
   check_storage_converges 10 0 (fun _ => true)
     [⟨"a.wav", 1, 10, 5, 1⟩, ⟨"b.wav", 2, 5, 5, 1⟩] 100 50 (by decide)⟩

/-! ## Claim C7 -/

/-- C7 counterexample: for a concrete candidate whose sidecar exists, the
per-candidate deletion unit of `_check_storage` deletes the artifact file
first and the sidecar second — not the sidecar first as the claim states —
and the event trace of a whole `_check_storage` run on that candidate
starts with the artifact deletion. -/
theorem delete_order_counterexample :
    deletePairEvents ⟨"a.wav", 1, 1, 5, 1⟩ true
      = [DelEv.artifactFile "a.wav", DelEv.sidecarFile "a.wav"]
    ∧ deletePairEvents ⟨"a.wav", 1, 1, 5, 1⟩ true
      ≠ [DelEv.sidecarFile "a.wav", DelEv.artifactFile "a.wav"]
    ∧ (check_storage 0 0 (fun _ => true) [⟨"a.wav", 1, 1, 5, 1⟩] 100 100).events
      = [DelEv.artifactFile "a.wav", DelEv.sidecarFile "a.wav"] := by decide

theorem evictLoop_events_structure (budget floor : Nat)
    (sc : Recording → Bool) :
    ∀ (rs : List Recording) (used free : Nat),
      ∃ deleted : List Recording,
        rs = deleted ++ (evictLoop budget floor sc rs used free).remaining
        ∧ (evictLoop budget floor sc rs used free).events
            = (deleted.map fun r => deletePairEvents r (sc r)).flatten
  | [], _, _ => ⟨[], rfl, rfl⟩
  | r :: rest, used, free => by
    rw [evictLoop]
    split
    · obtain ⟨deleted, hrem, hevs⟩ := evictLoop_events_structure budget floor
        sc rest
        (used - (r.size + if sc r then r.sidecarSize else 0))
        (free + (r.size + if sc r then r.sidecarSize else 0))
      refine ⟨r :: deleted, ?_, ?_⟩
      · simpa using hrem
      · simpa using hevs
    · exact ⟨[], rfl, rfl⟩

/-- C7 amended: for each artifact selected for eviction, reclaim deletes
the artifact file first and the sidecar second (the reverse of the claimed
order): the eviction loop's event trace is, candidate by candidate in
eviction order, `deletePairEvents`, whose first event is always the
artifact deletion, with the sidecar deletion after it. -/
theorem evict_deletes_artifact_then_sidecar (budget floor : Nat)
    (sc : Recording → Bool) (rs : List Recording) (used free : Nat) :
    (∀ r : Recording,
      deletePairEvents r true
        = [DelEv.artifactFile r.name, DelEv.sidecarFile r.name]
      ∧ ∀ present : Bool,
          (deletePairEvents r present).head? = some (DelEv.artifactFile r.name))
    ∧ ∃ deleted : List Recording,
        rs = deleted ++ (evictLoop budget floor sc rs used free).remaining
        ∧ (evictLoop budget floor sc rs used free).events
            = (deleted.map fun r => deletePairEvents r (sc r)).flatten := by
  refine ⟨?_, evictLoop_events_structure budget floor sc rs used free⟩
  intro r
  refine ⟨rfl, ?_⟩
  intro present
  cases present <;> rfl

/-! ## Claim C8 -/

/-- C8 counterexample: at a concrete capture cycle with a valid 3D fix
available at sidecar-write time, the sidecar written by `record_audio` has
an empty location field (`record_audio` calls `save_metadata` without any
`gps_data` argument), not the available fix. -/
theorem sidecar_location_counterexample :
    (record_cycle_sidecar "dev" "20250101T000000" ⟨6, 2, 16000⟩
      (some fix3d)).location = none
    ∧ (record_cycle_sidecar "dev" "20250101T000000" ⟨6, 2, 16000⟩
        (some fix3d)).location ≠ some fix3d := by decide

/-- C8 amended: every sidecar written at the end of a successful capture
cycle records the audio format parameters, but its location field is
always empty — `save_metadata` would record a location if one were passed
(`'location': gps_data or {}`), yet `record_audio` never passes one, so
even when a fix is available at sidecar-write time the location stays
empty. -/
theorem record_cycle_sidecar_location_empty (deviceId timestamp : String)
    (fmt : AudioFormat) (availableFix : Option LocationRecord) :
    (record_cycle_sidecar deviceId timestamp fmt availableFix).audioFormat
      = fmt
    ∧ (record_cycle_sidecar deviceId timestamp fmt availableFix).location
      = none
    ∧ ∀ loc : LocationRecord,
        (save_metadata deviceId timestamp fmt (some loc)).location
          = some loc :=
  ⟨rfl, rfl, fun _ => rfl⟩

/-! ## Claim C9 -/

theorem get_current_location_no_fix (gpsAvailable : Bool)
    (r : PacketResult) (h : noFixRead r) :
    get_current_location gpsAvailable r = none := by
  rcases h with rfl | ⟨p, rfl, hmode⟩
  · cases gpsAvailable <;> rfl
  · cases gpsAvailable
    · rfl
    · simp only [get_current_location, Bool.not_true, Bool.false_eq_true,
        if_false]
      rw [if_neg (by omega)]

theorem trackTicks_no_fix (gpsAvailable : Bool) :
    ∀ (reads : List PacketResult) (dayLog : List LocationRecord),
      (∀ r ∈ reads, noFixRead r) →
      trackTicks gpsAvailable reads dayLog = dayLog
  | [], _, _ => rfl
  | r :: rest, dayLog, h => by
    have hr : noFixRead r := h r (List.mem_cons_self r rest)
    simp only [trackTicks, List.foldl_cons]
    rw [show (log_location gpsAvailable r dayLog).1 = dayLog by
      rw [log_location, get_current_location_no_fix gpsAvailable r hr]]
    exact trackTicks_no_fix gpsAvailable rest dayLog
      (fun q hq => h q (List.mem_cons_of_mem r hq))

/-- C9: on every sampling tick whose positioning read fails or reports a
fix mode below 2, `log_location` appends zero entries to the daily log and
returns `none` (the Python never lets the exception escape), and tracking
over any schedule of such ticks leaves the daily log unchanged — the loop
keeps running. -/
theorem log_location_no_fix (gpsAvailable : Bool)
    (reads : List PacketResult) (dayLog : List LocationRecord)
    (h : ∀ r ∈ reads, noFixRead r) :
    (∀ r ∈ reads,
      (log_location gpsAvailable r dayLog).1 = dayLog
      ∧ (log_location gpsAvailable r dayLog).2 = none)
    ∧ trackTicks gpsAvailable reads dayLog = dayLog := by
  constructor
  · intro r hr
    rw [log_location, get_current_location_no_fix gpsAvailable r (h r hr)]
    exact ⟨rfl, rfl⟩
  · exact trackTicks_no_fix gpsAvailable reads dayLog h

/-- Witness for C9 at a concrete input: three consecutive no-fix ticks
(a read failure, a mode-1 packet, another read failure) append zero
entries to a concrete one-entry daily log. -/
theorem log_location_no_fix_witness :
    (log_location true (PacketResult.packet pktNoFix) [fix3d]).1 = [fix3d]
    ∧ trackTicks true
        [PacketResult.readError, PacketResult.packet pktNoFix,
         PacketResult.readError] [fix3d] = [fix3d] := by
  have h : ∀ r ∈ [PacketResult.readError, PacketResult.packet pktNoFix,
      PacketResult.readError], noFixRead r := by
    intro r hr
    simp only [List.mem_cons, List.not_mem_nil, or_false] at hr
    rcases hr with rfl | rfl | rfl
    · exact Or.inl rfl
    · exact Or.inr ⟨pktNoFix, rfl, by decide⟩
    · exact Or.inl rfl
  have happ := log_location_no_fix true
    [PacketResult.readError, PacketResult.packet pktNoFix,
     PacketResult.readError] [fix3d] h
  exact ⟨(happ.1 (PacketResult.packet pktNoFix) (by simp)).1, happ.2⟩
